import Mathlib

/-!
Shallow embedding of the BrainfoamKit sources under verification:
`src/brainfoamkit_lib/machine.rs` (the `VirtualMachine`) and
`src/brainfoamkit_lib/iterable_nybble.rs` (the `IterableNybble` iterator).

The repository's `Bit`, `Nybble`, `Byte`, `Instruction` and `Program` types
live in files that are not part of the sources under verification; they are
modelled from the specification (and pinned, where the specification leaves a
choice open, by the repository's own tests that are part of the sources).

Rust panics (`todo!`, index out of bounds, `usize` underflow) are modelled by
`Option`: a function returns `none` exactly when the Rust code panics, so a
completed call is a `some` result.
-/

/-- Modelled from the spec: `Bit` is a single binary digit value, 0 or 1
(§2/§3); the type itself is not among the sources under verification. -/
inductive Bit where
  | zero
  | one
  deriving DecidableEq

/-- Modelled from the spec: the numeric reading of a `Bit` (0 or 1). -/
def Bit.toNat : Bit → Nat
  | Bit.zero => 0
  | Bit.one => 1

/-- Modelled from the spec: `Nybble` is an ordered sequence of exactly 4
`Bit`s with conversion to and from the lower nibble of an 8-bit unsigned
integer (§2/§3). The field `bit_0` is the least-significant bit: the spec
allows any fixed, documented bit order, and this one is pinned by the
repository test `test_iterable_nybble` (in the sources under verification),
which iterates `Nybble::from_u8(0b1010)` as zero, one, zero, one. -/
structure Nybble where
  bit_0 : Bit
  bit_1 : Bit
  bit_2 : Bit
  bit_3 : Bit
  deriving DecidableEq

/-- Modelled from the spec: construct a `Nybble` from an unsigned integer,
masking to the low 4 bits (bit i of `n` has weight 2^i). -/
def Nybble.from_u8 (n : Nat) : Nybble :=
  { bit_0 := if n % 2 = 1 then Bit.one else Bit.zero
    bit_1 := if n / 2 % 2 = 1 then Bit.one else Bit.zero
    bit_2 := if n / 4 % 2 = 1 then Bit.one else Bit.zero
    bit_3 := if n / 8 % 2 = 1 then Bit.one else Bit.zero }

/-- Modelled from the spec: the integer value of a `Nybble`, `bit_0` being
the least-significant bit. -/
def Nybble.to_u8 (nyb : Nybble) : Nat :=
  nyb.bit_0.toNat + 2 * nyb.bit_1.toNat + 4 * nyb.bit_2.toNat + 8 * nyb.bit_3.toNat

/-- Modelled from the spec: indexed access to the bits of a `Nybble`, index 0
being the least-significant bit (pinned by `test_iterable_nybble`). The
iterator in `iterable_nybble.rs` only ever calls this with index 0..3 (the
`next_index > 4` guard), so the value at larger indices is irrelevant to
every claim; it is made total with `bit_3` as the out-of-range value. -/
def Nybble.get_bit_ref (nyb : Nybble) : Nat → Bit
  | 0 => nyb.bit_0
  | 1 => nyb.bit_1
  | 2 => nyb.bit_2
  | _ => nyb.bit_3

/-- Modelled from the spec: `Byte` is two `Nybble`s (high, low) composing an
8-bit memory cell, with `value = high*16 + low` (§2/§3). -/
structure Byte where
  high : Nybble
  low : Nybble
  deriving DecidableEq

/-- Modelled from the spec: the integer value of a `Byte` in [0, 255]. -/
def Byte.to_u8 (b : Byte) : Nat :=
  16 * b.high.to_u8 + b.low.to_u8

/-- Modelled from the spec: construct a `Byte` from an unsigned integer,
masking to 8 bits. -/
def Byte.from_u8 (n : Nat) : Byte :=
  { high := Nybble.from_u8 (n % 256 / 16)
    low := Nybble.from_u8 (n % 16) }

/-- Modelled from the spec: increment with mod-256 wraparound (§2/§3). -/
def Byte.increment (b : Byte) : Byte :=
  Byte.from_u8 ((b.to_u8 + 1) % 256)

/-- Modelled from the spec: decrement with mod-256 wraparound (§2/§3). -/
def Byte.decrement (b : Byte) : Byte :=
  Byte.from_u8 ((b.to_u8 + 255) % 256)

/-- Modelled from the spec: `Byte::default()`, the zero byte (the tape is
"all initialized to zero", §3). -/
def Byte.default : Byte :=
  Byte.from_u8 0

/-- The closed set of 9 instruction tags, as listed in the `match` of
`execute_instruction` in `machine.rs` and in §3 of the spec. -/
inductive Instruction where
  | IncrementPointer
  | DecrementPointer
  | IncrementValue
  | DecrementValue
  | OutputValue
  | InputValue
  | JumpForward
  | JumpBackward
  | NoOp
  deriving DecidableEq

/-- Modelled from the spec: `Program` is an ordered, indexable sequence of
`Instruction`s (§2/§3). The spec's jump table is omitted: the machine code
under verification never consults it (`jump_forward`/`jump_backward` are
`todo!` placeholders), so no claim depends on it. -/
structure Program where
  instructions : List Instruction
  deriving DecidableEq

/-- Modelled from the spec: `get_instruction(pc)` returns the `Instruction`
at `pc`, or a "no instruction" result if `pc` is at or beyond the end
(§4.2); this also matches the doc examples in `machine.rs`. -/
def Program.get_instruction (p : Program) (index : Nat) : Option Instruction :=
  p.instructions.get? index

/-- Modelled from the spec: `Program::default()`, the empty instruction
sequence (used only by `VirtualMachine::default`). -/
def Program.default : Program :=
  { instructions := [] }

/-- The `VirtualMachine` struct of `machine.rs`: tape of `Byte` cells,
memory pointer, loaded program, program counter. `usize` fields are
modelled as `Nat`. -/
structure VirtualMachine where
  tape : List Byte
  memory_pointer : Nat
  program : Program
  program_counter : Nat
  deriving DecidableEq

/-- `VirtualMachine::load`: replaces the current program with the given one
(`self.program = program;` is the entire body). -/
def VirtualMachine.load (vm : VirtualMachine) (program : Program) : VirtualMachine :=
  { vm with program := program }

/-- `VirtualMachine::length`: the length of the tape. -/
def VirtualMachine.length (vm : VirtualMachine) : Nat :=
  vm.tape.length

/-- `VirtualMachine::get_instruction`:
`self.program.get_instruction(self.program_counter)`. -/
def VirtualMachine.get_instruction (vm : VirtualMachine) : Option Instruction :=
  vm.program.get_instruction vm.program_counter

/-- `VirtualMachine::increment_pointer`: `self.memory_pointer += 1;` with no
bounds check against the tape length. -/
def VirtualMachine.increment_pointer (vm : VirtualMachine) : VirtualMachine :=
  { vm with memory_pointer := vm.memory_pointer + 1 }

/-- `VirtualMachine::decrement_pointer`: `self.memory_pointer -= 1;`.
`usize` subtraction underflows (panics) when the pointer is already 0,
modelled as `none`. -/
def VirtualMachine.decrement_pointer (vm : VirtualMachine) : Option VirtualMachine :=
  if vm.memory_pointer = 0 then none
  else some { vm with memory_pointer := vm.memory_pointer - 1 }

/-- `VirtualMachine::increment_value`:
`let mut value = self.tape[self.memory_pointer]; value.increment();`.
The indexing panics (`none`) when the pointer is outside the tape; otherwise
the cell is copied into `value`, the copy is incremented and then dropped —
nothing is written back, so the machine state is returned unchanged. -/
def VirtualMachine.increment_value (vm : VirtualMachine) : Option VirtualMachine :=
  match vm.tape.get? vm.memory_pointer with
  | some value =>
      let _incremented := Byte.increment value
      some vm
  | none => none

/-- `VirtualMachine::decrement_value`:
`let mut value = self.tape[self.memory_pointer]; value.decrement();`.
Same shape as `increment_value`: the decremented copy is dropped and the
state returned unchanged. -/
def VirtualMachine.decrement_value (vm : VirtualMachine) : Option VirtualMachine :=
  match vm.tape.get? vm.memory_pointer with
  | some value =>
      let _decremented := Byte.decrement value
      some vm
  | none => none

/-- The `match current_instruction` arms of `execute_instruction` in
`machine.rs`. `output_value`, `input_value`, `jump_forward` and
`jump_backward` are `todo!` placeholders that panic, modelled as `none`. -/
def VirtualMachine.dispatch (vm : VirtualMachine) : Instruction → Option VirtualMachine
  | Instruction.IncrementPointer => some vm.increment_pointer
  | Instruction.DecrementPointer => vm.decrement_pointer
  | Instruction.IncrementValue => vm.increment_value
  | Instruction.DecrementValue => vm.decrement_value
  | Instruction.OutputValue => none
  | Instruction.InputValue => none
  | Instruction.JumpForward => none
  | Instruction.JumpBackward => none
  | Instruction.NoOp => some vm

/-- `VirtualMachine::execute_instruction`: fetch the current instruction
(`self.get_instruction().unwrap_or(Instruction::NoOp)`), dispatch on it, and
then `self.program_counter += 1;` — the increment runs only if the dispatch
did not panic. -/
def VirtualMachine.execute_instruction (vm : VirtualMachine) : Option VirtualMachine :=
  (vm.dispatch ((vm.get_instruction).getD Instruction.NoOp)).map
    fun m => { m with program_counter := m.program_counter + 1 }

/-- `impl Default for VirtualMachine`: `vec![Byte::default(); 30000]`,
pointer 0, default (empty) program, counter 0. -/
def VirtualMachine.default : VirtualMachine :=
  { tape := List.replicate 30000 Byte.default
    memory_pointer := 0
    program := Program.default
    program_counter := 0 }

/-- Runs `execute_instruction` n times, propagating a panic (`none`). -/
def stepN : Nat → VirtualMachine → Option VirtualMachine
  | 0, vm => some vm
  | n + 1, vm => (vm.execute_instruction).bind (stepN n)

/-- The `IterableNybble` struct of `iterable_nybble.rs`: a `Nybble` and a
current index. The `u8` index is modelled as `Nat`; every state reachable
from `IterableNybble::new` keeps the index in [0, 4], far from `u8`
overflow. -/
structure IterableNybble where
  nybble : Nybble
  current_index : Nat
  deriving DecidableEq

/-- `IterableNybble::new`: starts at index 0. -/
def IterableNybble.new (nybble : Nybble) : IterableNybble :=
  { nybble := nybble, current_index := 0 }

/-- `IterableNybble::next` (the `Iterator` impl): if `current_index + 1 > 4`,
reset the index to 0 and yield `None`; otherwise advance the index and yield
the bit at the old index. Returns the yielded item with the mutated
iterator. -/
def IterableNybble.next (it : IterableNybble) : Option Bit × IterableNybble :=
  let current_index := it.current_index
  let next_index := current_index + 1
  if next_index > 4 then
    (none, { it with current_index := 0 })
  else
    (some (it.nybble.get_bit_ref current_index), { it with current_index := next_index })

/-- Observation helper: the list of items yielded by n successive `next`
calls. -/
def IterableNybble.outputs : Nat → IterableNybble → List (Option Bit)
  | 0, _ => []
  | n + 1, it => (it.next).1 :: IterableNybble.outputs n (it.next).2

/-- Observation helper: the iterator state after n `next` calls. -/
def IterableNybble.run : Nat → IterableNybble → IterableNybble
  | 0, it => it
  | n + 1, it => IterableNybble.run n (it.next).2

/-- Reading a bit sequence as binary with the first element least
significant (the order the iterator actually yields, per
`test_iterable_nybble`). -/
def lsb_value : List Bit → Nat
  | [] => 0
  | b :: bs => b.toNat + 2 * lsb_value bs

/-- Modelled from the spec's words: reading a bit sequence as binary with
the first element most significant, the order §4.1 of the spec asserts for
the iteration. Used only to compare the spec's claim with the code. -/
def msb_value (l : List Bit) : Nat :=
  l.foldl (fun acc b => 2 * acc + b.toNat) 0

/-- Helper: the dispatch arms never change the program counter (the only
implemented mutations touch `memory_pointer` or, nominally, the tape). -/
theorem VirtualMachine.dispatch_program_counter {vm m : VirtualMachine}
    {i : Instruction} (h : vm.dispatch i = some m) :
    m.program_counter = vm.program_counter := by
  cases i <;>
    simp only [VirtualMachine.dispatch, VirtualMachine.increment_pointer,
      VirtualMachine.decrement_pointer, VirtualMachine.increment_value,
      VirtualMachine.decrement_value, Option.some.injEq] at h
  case IncrementPointer => subst h; rfl
  case DecrementPointer =>
    split at h
    · exact absurd h (by simp)
    · simp only [Option.some.injEq] at h; subst h; rfl
  case IncrementValue =>
    split at h
    · simp only [Option.some.injEq] at h; subst h; rfl
    · exact absurd h (by simp)
  case DecrementValue =>
    split at h
    · simp only [Option.some.injEq] at h; subst h; rfl
    · exact absurd h (by simp)
  case NoOp => subst h; rfl
  case OutputValue => exact Option.noConfusion h
  case InputValue => exact Option.noConfusion h
  case JumpForward => exact Option.noConfusion h
  case JumpBackward => exact Option.noConfusion h

/-- Helper: every completed `execute_instruction` call advances the program
counter by exactly 1. -/
theorem VirtualMachine.execute_instruction_pc {vm vm' : VirtualMachine}
    (h : vm.execute_instruction = some vm') :
    vm'.program_counter = vm.program_counter + 1 := by
  unfold VirtualMachine.execute_instruction at h
  obtain ⟨m, hm, hv⟩ := Option.map_eq_some'.mp h
  subst hv
  simp [VirtualMachine.dispatch_program_counter hm]

/-- Helper: n completed steps advance the program counter by exactly n. -/
theorem stepN_pc : ∀ (n : Nat) (vm vm' : VirtualMachine),
    stepN n vm = some vm' → vm'.program_counter = vm.program_counter + n := by
  intro n
  induction n with
  | zero =>
      intro vm vm' h
      simp only [stepN, Option.some.injEq] at h
      subst h; rfl
  | succ n ih =>
      intro vm vm' h
      simp only [stepN] at h
      obtain ⟨m, hm, hrest⟩ := Option.bind_eq_some.mp h
      have h1 := VirtualMachine.execute_instruction_pc hm
      have h2 := ih m vm' hrest
      omega

def vmIncAtZero : VirtualMachine :=
  { tape := [Byte.from_u8 0], memory_pointer := 0,
    program := { instructions := [Instruction.IncrementValue] }, program_counter := 0 }

def vmDecAtZero : VirtualMachine :=
  { tape := [Byte.from_u8 0], memory_pointer := 0,
    program := { instructions := [Instruction.DecrementValue] }, program_counter := 0 }

/-- C1: executing IncrementValue (resp. DecrementValue) with the pointer on a
tape cell completes, but the machine state it returns has the tape entirely
unchanged (only the program counter moved): the incremented/decremented copy
is dropped, never stored back into tape[memory_pointer] — even though
incrementing (resp. decrementing) the fetched Byte does produce a different
Byte, so the slot should observably change per the claim. -/
theorem increment_value_drops_writeback :
    vmIncAtZero.execute_instruction = some { vmIncAtZero with program_counter := 1 } ∧
    vmDecAtZero.execute_instruction = some { vmDecAtZero with program_counter := 1 } ∧
    Byte.increment (Byte.from_u8 0) ≠ Byte.from_u8 0 ∧
    Byte.decrement (Byte.from_u8 0) ≠ Byte.from_u8 0 :=
  ⟨by decide, by decide, by decide, by decide⟩

def vmPlusPlusPlus : VirtualMachine :=
  VirtualMachine.default.load
    { instructions := [Instruction.IncrementValue, Instruction.IncrementValue,
        Instruction.IncrementValue] }

/-- C2: running the three-instruction program "+++" on a freshly constructed
(default) VirtualMachine for 3 steps leaves program_counter = 3 as claimed,
but tape[0] is still the zero Byte, not Byte::from(3): the increments never
reach the tape. -/
theorem plus_plus_plus_leaves_tape_zero :
    (stepN 3 vmPlusPlusPlus).map VirtualMachine.program_counter = some 3 ∧
    ((stepN 3 vmPlusPlusPlus).bind fun v => v.tape.get? 0) = some (Byte.from_u8 0) ∧
    Byte.from_u8 0 ≠ Byte.from_u8 3 :=
  ⟨by decide, by decide, by decide⟩

/-- C3: execute_instruction treats an out-of-bounds program_counter as NoOp —
a trailing call changes nothing but the counter — and every call that
completes increments program_counter by exactly 1. (The jump instructions,
whose dispatch the claim allows to set the counter from the jump table, are
unimplemented placeholders in this code and never complete a call, so no
completed call deviates from the +1 discipline.) -/
theorem execute_fetch_advance :
    (∀ vm : VirtualMachine,
        vm.program.instructions.length ≤ vm.program_counter →
        vm.execute_instruction = some { vm with program_counter := vm.program_counter + 1 }) ∧
    (∀ vm vm' : VirtualMachine, vm.execute_instruction = some vm' →
        vm'.program_counter = vm.program_counter + 1) := by
  constructor
  · intro vm h
    have hnone : vm.get_instruction = none := List.get?_eq_none.mpr h
    simp [VirtualMachine.execute_instruction, hnone, VirtualMachine.dispatch]
  · intro vm vm' h
    exact VirtualMachine.execute_instruction_pc h

def vmTrailing : VirtualMachine :=
  { tape := [Byte.from_u8 0], memory_pointer := 0,
    program := { instructions := [] }, program_counter := 0 }

/-- Witness for C3: a machine whose counter is past the (empty) program takes
a trailing NoOp step that only advances the counter. -/
theorem execute_fetch_advance_witness :
    (vmTrailing.program.instructions.length ≤ vmTrailing.program_counter ∧
      vmTrailing.execute_instruction = some { vmTrailing with program_counter := 1 }) ∧
    ({ vmTrailing with program_counter := 1 } : VirtualMachine).program_counter =
      vmTrailing.program_counter + 1 :=
  ⟨⟨by decide, execute_fetch_advance.1 vmTrailing (by decide)⟩,
    execute_fetch_advance.2 vmTrailing { vmTrailing with program_counter := 1 }
      (execute_fetch_advance.1 vmTrailing (by decide))⟩

def vmTwoRight : VirtualMachine :=
  { tape := [Byte.from_u8 0, Byte.from_u8 0], memory_pointer := 0,
    program := { instructions := [Instruction.IncrementPointer, Instruction.IncrementPointer] },
    program_counter := 0 }

/-- C4: on the program ">>" with a tape of length 2, both IncrementPointer
steps complete without any error being raised, and the memory pointer ends at
2 — equal to the tape length, i.e. outside the valid range [0, 2) — because
increment_pointer performs an unchecked increment; no PointerOutOfBounds
condition exists in this code. -/
theorem pointer_runs_off_tape_unchecked :
    stepN 2 vmTwoRight =
      some { vmTwoRight with memory_pointer := 2, program_counter := 2 } ∧
    ({ vmTwoRight with memory_pointer := 2, program_counter := 2 } : VirtualMachine).memory_pointer =
      vmTwoRight.tape.length :=
  ⟨by decide, by decide⟩

/-- C5: whenever the fetched instruction is OutputValue, InputValue,
JumpForward or JumpBackward, execute_instruction panics (the dispatch targets
are todo! placeholders) and no state transition completes. -/
theorem unimplemented_instructions_panic : ∀ vm : VirtualMachine,
    ((vm.get_instruction).getD Instruction.NoOp = Instruction.OutputValue ∨
     (vm.get_instruction).getD Instruction.NoOp = Instruction.InputValue ∨
     (vm.get_instruction).getD Instruction.NoOp = Instruction.JumpForward ∨
     (vm.get_instruction).getD Instruction.NoOp = Instruction.JumpBackward) →
    vm.execute_instruction = none := by
  intro vm h
  unfold VirtualMachine.execute_instruction
  rcases h with h | h | h | h <;> rw [h] <;> rfl

def vmJumpOnly : VirtualMachine :=
  { tape := [Byte.from_u8 0], memory_pointer := 0,
    program := { instructions := [Instruction.JumpForward] }, program_counter := 0 }

/-- Witness for C5: a machine about to execute JumpForward panics. -/
theorem unimplemented_instructions_panic_witness :
    ((vmJumpOnly.get_instruction).getD Instruction.NoOp = Instruction.JumpForward) ∧
    vmJumpOnly.execute_instruction = none :=
  ⟨by decide,
    unimplemented_instructions_panic vmJumpOnly (Or.inr (Or.inr (Or.inl (by decide))))⟩

def vmAfterTwoNoOps : Option VirtualMachine :=
  stepN 2 (VirtualMachine.default.load
    { instructions := [Instruction.NoOp, Instruction.NoOp] })

/-- C6 counterexample: a default machine that has executed two steps (so its
program counter is 2) keeps program_counter = 2 — not 0 — after a new Program
is loaded, refuting the claim that load resets the counter. -/
theorem load_does_not_reset_program_counter :
    (vmAfterTwoNoOps.map fun v =>
        (v.load { instructions := [Instruction.IncrementValue] }).program_counter) = some 2 ∧
    (2 : Nat) ≠ 0 :=
  ⟨by decide, by decide⟩

/-- C6 (amended): loading a new Program replaces the program and leaves the
tape, the memory pointer AND the program counter unchanged — load's body is
the single assignment of the program field and resets nothing. -/
theorem load_replaces_program_only : ∀ (vm : VirtualMachine) (p : Program),
    (vm.load p).program = p ∧ (vm.load p).tape = vm.tape ∧
    (vm.load p).memory_pointer = vm.memory_pointer ∧
    (vm.load p).program_counter = vm.program_counter :=
  fun _ _ => ⟨rfl, rfl, rfl, rfl⟩

/-- C7 counterexample: iterating the Nybble of value 10 yields zero, one,
zero, one (as the repository's own test asserts); read as binary with the
first-yielded bit most significant that sequence denotes 5, not 10, refuting
the claim that iteration is most-significant-bit first. -/
theorem nybble_iteration_not_msb_first :
    IterableNybble.outputs 5 (IterableNybble.new (Nybble.from_u8 10)) =
      [some Bit.zero, some Bit.one, some Bit.zero, some Bit.one, none] ∧
    msb_value [Bit.zero, Bit.one, Bit.zero, Bit.one] ≠ (Nybble.from_u8 10).to_u8 := by
  decide

/-- C7 (amended): iterating a Nybble yields exactly 4 Bits and then None,
least-significant bit first; the yielded sequence read as binary with the
first item least significant equals the Nybble's integer value; and after the
terminating None the iterator is back in its initial state, so a fresh (or
continued) iteration over the same Nybble yields the same sequence. -/
theorem nybble_iteration_lsb_first : ∀ nyb : Nybble,
    IterableNybble.outputs 5 (IterableNybble.new nyb) =
      [some (nyb.get_bit_ref 0), some (nyb.get_bit_ref 1),
        some (nyb.get_bit_ref 2), some (nyb.get_bit_ref 3), none] ∧
    lsb_value [nyb.get_bit_ref 0, nyb.get_bit_ref 1,
        nyb.get_bit_ref 2, nyb.get_bit_ref 3] = nyb.to_u8 ∧
    IterableNybble.run 5 (IterableNybble.new nyb) = IterableNybble.new nyb := by
  intro nyb
  obtain ⟨b0, b1, b2, b3⟩ := nyb
  cases b0 <;> cases b1 <;> cases b2 <;> cases b3 <;> decide

/-- C8: the default VirtualMachine has a tape of exactly 30000 cells, every
cell the zero Byte, with memory pointer 0 and program counter 0. -/
theorem default_machine_initial_state :
    VirtualMachine.default.tape.length = 30000 ∧
    (∀ i : Nat, i < 30000 → VirtualMachine.default.tape.get? i = some Byte.default) ∧
    Byte.to_u8 Byte.default = 0 ∧
    VirtualMachine.default.memory_pointer = 0 ∧
    VirtualMachine.default.program_counter = 0 := by
  refine ⟨?_, ?_, by decide, rfl, rfl⟩
  · show (List.replicate 30000 Byte.default).length = 30000
    exact List.length_replicate 30000 Byte.default
  · intro i hi
    show (List.replicate 30000 Byte.default).get? i = some Byte.default
    rw [List.get?_eq_getElem?]
    exact List.getElem?_replicate_of_lt hi

/-- Witness for C8: cell 0 of the default machine is the zero Byte. -/
theorem default_machine_initial_state_witness :
    (0 : Nat) < 30000 ∧ VirtualMachine.default.tape.get? 0 = some Byte.default :=
  ⟨by decide, default_machine_initial_state.2.1 0 (by decide)⟩

/-- C9: every completed execute_instruction call whose fetched instruction is
IncrementPointer, DecrementPointer, IncrementValue, DecrementValue or NoOp
(the NoOp case covers an out-of-bounds program counter) advances the program
counter by exactly 1; consequently n completed steps advance it by exactly n,
so it never decreases and, from 0, equals the number of completed calls. -/
theorem completed_step_advances_counter :
    (∀ vm vm' : VirtualMachine,
        ((vm.get_instruction).getD Instruction.NoOp = Instruction.IncrementPointer ∨
         (vm.get_instruction).getD Instruction.NoOp = Instruction.DecrementPointer ∨
         (vm.get_instruction).getD Instruction.NoOp = Instruction.IncrementValue ∨
         (vm.get_instruction).getD Instruction.NoOp = Instruction.DecrementValue ∨
         (vm.get_instruction).getD Instruction.NoOp = Instruction.NoOp) →
        vm.execute_instruction = some vm' →
        vm'.program_counter = vm.program_counter + 1) ∧
    (∀ (n : Nat) (vm vm' : VirtualMachine), stepN n vm = some vm' →
        vm'.program_counter = vm.program_counter + n) :=
  ⟨fun _ _ _ h => VirtualMachine.execute_instruction_pc h, stepN_pc⟩

def vmOneRight : VirtualMachine :=
  { tape := [Byte.from_u8 0], memory_pointer := 0,
    program := { instructions := [Instruction.IncrementPointer] }, program_counter := 0 }

/-- Witness for C9: one IncrementPointer step advances the counter from 0 to
1. -/
theorem completed_step_advances_counter_witness :
    (((vmOneRight.get_instruction).getD Instruction.NoOp = Instruction.IncrementPointer) ∧
      ({ vmOneRight with memory_pointer := 1, program_counter := 1 } : VirtualMachine).program_counter =
        vmOneRight.program_counter + 1) ∧
    ({ vmOneRight with memory_pointer := 1, program_counter := 1 } : VirtualMachine).program_counter =
      vmOneRight.program_counter + 1 :=
  ⟨⟨by decide,
      completed_step_advances_counter.1 vmOneRight
        { vmOneRight with memory_pointer := 1, program_counter := 1 }
        (Or.inl (by decide)) (by decide)⟩,
    completed_step_advances_counter.2 1 vmOneRight
      { vmOneRight with memory_pointer := 1, program_counter := 1 } (by decide)⟩

/-- C10: whenever next() yields None the iterator's index has been reset to 0
(its state is again the initial state for its Nybble), and consequently the
iteration is cyclic: 10 successive calls yield the 5-call sequence (4 bits
then None) twice over. -/
theorem iterator_resets_after_none :
    (∀ it : IterableNybble, (it.next).1 = none →
        (it.next).2 = IterableNybble.new it.nybble) ∧
    (∀ nyb : Nybble,
        IterableNybble.outputs 10 (IterableNybble.new nyb) =
          IterableNybble.outputs 5 (IterableNybble.new nyb) ++
            IterableNybble.outputs 5 (IterableNybble.new nyb)) := by
  constructor
  · intro it h
    unfold IterableNybble.next at h ⊢
    by_cases hc : it.current_index + 1 > 4
    · rw [if_pos hc]
      cases it
      rfl
    · simp [if_neg hc] at h
  · intro nyb
    obtain ⟨b0, b1, b2, b3⟩ := nyb
    rfl

/-- Witness for C10: an exhausted iterator (index 4) over the Nybble of value
10 yields None and is back at the initial state. -/
theorem iterator_resets_after_none_witness :
    ((IterableNybble.mk (Nybble.from_u8 10) 4).next).1 = none ∧
    ((IterableNybble.mk (Nybble.from_u8 10) 4).next).2 =
      IterableNybble.new (Nybble.from_u8 10) :=
  ⟨by decide,
    iterator_resets_after_none.1 (IterableNybble.mk (Nybble.from_u8 10) 4) (by decide)⟩
